import Mathlib

/-!
Shallow embedding of the govee2mqtt web dashboard components
(`src/assets/components/devices.js` and `src/assets/components/timeago.js`)
together with the host facilities they rely on (the event-loop interval
timers and the `@lit/task` PollingTask wrapper, specified in §4.1/§5 of the
spec), and proofs of the frozen claims about them.

Conventions:
- machine integers are `Nat`; JS `<<`/`|` on the small colour components
  (0–255, far below 2³¹) coincide with `Nat.shiftLeft`/`Nat.lor`;
- time is wall-clock milliseconds as a `Nat`; a `tick` event advances the
  clock by 1 ms and fires every due interval timer;
- the components are modelled as transition systems over explicit state
  records, driven by event lists (traces).
-/

namespace GoveeUI

/-! ## JS primitives: number formatting and URI encoding -/

/-- Lowercase hex digit, as produced by JS `Number.prototype.toString(16)`. -/
def hexDigitChar (n : Nat) : Char :=
  if n < 10 then Char.ofNat (48 + n) else Char.ofNat (87 + n)

/-- Digit list of `n` in base 16, most significant first
(JS `n.toString(16)` for a nonnegative integer). -/
def toHexList (n : Nat) : List Char :=
  if _h : n < 16 then [hexDigitChar n]
  else toHexList (n / 16) ++ [hexDigitChar (n % 16)]
termination_by n
decreasing_by exact Nat.div_lt_self (by omega) (by omega)

/-- JS `n.toString(16)` for a nonnegative integer `n`. -/
def toHex (n : Nat) : String := ⟨toHexList n⟩

/-- JS `String.prototype.padStart(len, c)` (for a one-char pad). -/
def padStart (s : String) (len : Nat) (c : Char) : String :=
  ⟨List.replicate (len - s.data.length) c ++ s.data⟩

/-- UTF-8 byte sequence of one character (byte values as `Nat`). -/
def utf8Bytes (c : Char) : List Nat :=
  let n := c.toNat
  if n < 128 then [n]
  else if n < 2048 then [192 + n / 64, 128 + n % 64]
  else if n < 65536 then [224 + n / 4096, 128 + n / 64 % 64, 128 + n % 64]
  else [240 + n / 262144, 128 + n / 4096 % 64, 128 + n / 64 % 64, 128 + n % 64]

/-- Bytes left intact by JS `encodeURIComponent`:
`A-Z a-z 0-9 - _ . ! ~ * ' ( )` (all single-byte ASCII). -/
def isUnreservedByte (b : Nat) : Bool :=
  (48 ≤ b && b ≤ 57) || (65 ≤ b && b ≤ 90) || (97 ≤ b && b ≤ 122) ||
  (b == 45) || (b == 46) || (b == 95) || (b == 126) ||
  (b == 33) || (b == 42) || (b == 39) || (b == 40) || (b == 41)

/-- Uppercase hex digit, as used in percent-escapes. -/
def hexDigitUpper (n : Nat) : Char :=
  if n < 10 then Char.ofNat (48 + n) else Char.ofNat (55 + n)

/-- Percent-escape of one byte: `%XY` with uppercase hex digits. -/
def pctEncodeByte (b : Nat) : List Char :=
  ['%', hexDigitUpper (b / 16), hexDigitUpper (b % 16)]

/-- Concatenation of a list of lists (kept local so evaluation is plain). -/
def listFlat : List (List α) → List α
  | [] => []
  | x :: xs => x ++ listFlat xs

/-- JS `encodeURIComponent`: every UTF-8 byte outside the unreserved set is
percent-escaped; unreserved bytes (all ASCII) pass through. -/
def encodeURIComponent (s : String) : String :=
  ⟨listFlat ((listFlat (s.data.map utf8Bytes)).map
    (fun b => if isUnreservedByte b then [Char.ofNat b] else pctEncodeByte b))⟩

/-- Value of one hex digit, accepting both cases. -/
def hexVal (c : Char) : Option Nat :=
  if 48 ≤ c.toNat ∧ c.toNat ≤ 57 then some (c.toNat - 48)
  else if 65 ≤ c.toNat ∧ c.toNat ≤ 70 then some (c.toNat - 55)
  else if 97 ≤ c.toNat ∧ c.toNat ≤ 102 then some (c.toNat - 87)
  else none

/-- Modelled from the spec: the server-side percent-decoder for the
`/api/device/{id}/color/{value}` path segment (§6: "The encoded color value
must be percent-encoded before insertion into the path"); the server that
decodes it is not under `src/`. Yields the byte sequence. -/
def percentDecodeBytes : List Char → Option (List Nat)
  | [] => some []
  | '%' :: h :: l :: rest => do
    let hv ← hexVal h
    let lv ← hexVal l
    let r ← percentDecodeBytes rest
    pure ((16 * hv + lv) :: r)
  | c :: rest => do
    let r ← percentDecodeBytes rest
    pure (c.toNat :: r)

/-- Modelled from the spec: percent-decoding back to a string (ASCII bytes,
which is all the colour values use). -/
def percentDecode (s : String) : Option String :=
  (percentDecodeBytes s.data).map (fun bs => ⟨bs.map Char.ofNat⟩)

/-! ## Data model (§3 of the spec, the JSON payload of `GET /api/devices`) -/

/-- RGB colour components, each an integer 0–255. -/
structure DevColor where
  r : Nat
  g : Nat
  b : Nat
deriving DecidableEq, Repr

/-- Modelled from the spec: the server-side parse of a `#rrggbb` colour
string (the command endpoints' consumer is not under `src/`); hex digits
accepted in either case. -/
def parseHexColor (s : String) : Option DevColor :=
  match s.data with
  | ['#', c1, c2, c3, c4, c5, c6] => do
    let r1 ← hexVal c1
    let r2 ← hexVal c2
    let g1 ← hexVal c3
    let g2 ← hexVal c4
    let b1 ← hexVal c5
    let b2 ← hexVal c6
    pure ⟨16 * r1 + r2, 16 * g1 + g2, 16 * b1 + b2⟩
  | _ => none

/-- The `state` object of a device (§3). `brightness` is carried opaquely
(it feeds only the unused `styles`/`rgb` binding in `_render_item`, dead
code in the emitted template). `updated` is an epoch-ms timestamp. -/
structure DeviceState where
  «on» : Bool
  color : DevColor
  brightness : String
  updated : Int
  source : String
deriving DecidableEq, Repr

/-- One device row of the list payload (§3). -/
structure Device where
  id : String
  name : String
  room : String
  ip : String
  sku : String
  state : Option DeviceState
deriving DecidableEq, Repr

/-! ## Row rendering (`DeviceList._render_item`) -/

/-- Observable content of one rendered `<tr>` produced by `_render_item`:
the cell texts, the power switch's `checked` attribute, the colour input's
`value`, and the timestamp/source bound when `state` is present. The
`styles` binding of the source is dead code (never interpolated into the
returned template) and is not part of the observable row. -/
structure Row where
  name : String
  room : String
  ip : String
  sku : String
  power_checked : Bool
  color_value : String
  id : String
  updated : Option Int
  source : Option String
deriving DecidableEq, Repr

/-- `DeviceList._render_item`. JS detail: when `state` is absent,
`item.state?.color.r` is `undefined` and `undefined << 16`, `undefined | x`
coerce to 0, so the colour value is 0; `?checked=${item.state?.on}` treats
`undefined` as falsy (unchecked). -/
def render_item (item : Device) : Row :=
  let color_value : Nat :=
    match item.state with
    | some st => st.color.r <<< 16 ||| st.color.g <<< 8 ||| st.color.b
    | none => 0
  let rgb_hex : String := "#" ++ padStart (toHex color_value) 6 '0'
  { name := item.name
    room := item.room
    ip := item.ip
    sku := item.sku
    power_checked := match item.state with | some st => st.«on» | none => false
    color_value := rgb_hex
    id := item.id
    updated := item.state.map (fun st => st.updated)
    source := item.state.map (fun st => st.source) }

/-- What the `DeviceList` component's `render()` puts on screen. `blank` is
the cleared content lit produces when the template value is `undefined`
(a `Task.render` call whose current status has no supplied callback). -/
inductive Rendered
  | blank
  | loading
  | table (rows : List Row)
deriving DecidableEq, Repr

/-- `DeviceList._render_device_list`: the table whose body is
`devices.map(this._render_item)` — one row per device, in payload order. -/
def render_device_list (devices : List Device) : Rendered :=
  .table (devices.map render_item)

/-! ## The host's interval timers

Models the event loop's `setInterval`/`clearInterval` (§5 of the spec:
single-threaded cooperative scheduling; §9: mount/unmount-scoped timer
handles). An interval registered at time `t` with period `p` fires at
`t + p`, `t + 2p`, … until cleared. Time advances in 1 ms ticks. -/

/-- One armed repeating timer. -/
structure Interval where
  id : Nat
  period : Nat
  nextFire : Nat
deriving DecidableEq, Repr

/-- The timer table of the event loop. -/
structure Sched where
  now : Nat
  nextId : Nat
  intervals : List Interval
deriving DecidableEq, Repr

/-- `setInterval(cb, period)`: allocates a fresh handle; first fire one full
period after registration. -/
def setIntervalS (s : Sched) (period : Nat) : Nat × Sched :=
  (s.nextId,
   { s with nextId := s.nextId + 1,
            intervals := s.intervals ++ [⟨s.nextId, period, s.now + period⟩] })

/-- `clearInterval(h)`: removes the handle; `clearInterval(undefined)` is a
no-op (as in JS). -/
def clearIntervalS (s : Sched) : Option Nat → Sched
  | none => s
  | some i => { s with intervals := s.intervals.filter (fun iv => iv.id ≠ i) }

/-- Advance the clock by 1 ms; return the intervals that fire at the new
instant (rescheduled one period later) alongside the new table. -/
def tickSched (s : Sched) : List Interval × Sched :=
  let now := s.now + 1
  (s.intervals.filter (fun iv => iv.nextFire = now),
   { s with now := now,
            intervals := s.intervals.map (fun iv =>
              if iv.nextFire = now then { iv with nextFire := iv.nextFire + iv.period }
              else iv) })

/-- Iterated ticking, accumulating the fire times chronologically (one entry
per interval per fire). -/
def schedTickN (s : Sched) : Nat → List Nat × Sched
  | 0 => ([], s)
  | n + 1 =>
    let (fired, s1) := tickSched s
    let (rest, s2) := schedTickN s1 n
    (fired.map (fun _ => s1.now) ++ rest, s2)

/-! ## PollingTask (`@lit/task`)

Modelled from the spec: the PollingTask component (§4.1) — its
implementation (the imported `@lit/task` package) is not under `src/`. It
exposes the observable states *pending*, *complete(value)*, *error(cause)*
(plus the pristine *initial* state before the first run); `render`
dispatches on the current status to the caller-supplied callback for that
status, and a status whose callback the caller did not supply renders
nothing (the dashboard's own `pending:` branch re-rendering the cached list
is what implements stale-while-revalidate, per §4.1's "the caller must
continue displaying the last `complete` value"). A new run supersedes an
in-flight one, so at most one run is current at a time. -/

/-- Cause of a failed run: a thrown `Error(response.status)` for a non-ok
HTTP response, or a network-level failure. -/
inductive TaskErr
  | http (status : Nat)
  | net (msg : String)
deriving DecidableEq, Repr

/-- Observable status of the device-list PollingTask. -/
inductive TStatus
  | initial
  | pending
  | complete (value : List Device)
  | error (cause : TaskErr)
deriving DecidableEq, Repr

/-- The task body of `DeviceList._deviceListTask`, applied to the settled
HTTP response: `if (!response.ok) throw new Error(response.status); return
response.json()`. The payload carried by an ok response is the parsed
device array. -/
def deviceListTask (ok : Bool) (status : Nat) (body : List Device) :
    Except TaskErr (List Device) :=
  if !ok then .error (.http status) else .ok body

/-! ## The DeviceList component (`devices.js`) as a transition system -/

/-- Instance fields of `DeviceList` (plus `everRan`, the `@lit/task`
auto-run latch: with `args: () => []` the task runs on the first host
update after construction and never auto-runs again, since `[]` compares
equal to `[]`). -/
structure DL where
  timer : Option Nat
  deviceList : Option (List Device)
  status : TStatus
  everRan : Bool
deriving DecidableEq, Repr

/-- The component together with its environment: the timer table, the log
of instants at which a `/api/devices` fetch was started, and the log of
fire-and-forget command request URLs. -/
structure World where
  sched : Sched
  dl : DL
  fetches : List Nat
  cmds : List String
deriving DecidableEq, Repr

/-- Events driving the component: a 1 ms clock tick (firing due timers),
the lifecycle callbacks, the settling of the in-flight list fetch (an HTTP
response or a network error), and the two user interactions. -/
inductive GEvent
  | tick
  | connect
  | disconnect
  | pollResponse (ok : Bool) (status : Nat) (body : List Device)
  | netError (msg : String)
  | togglePower (id : String) (checked : Bool)
  | setColor (id : String) (value : String)
deriving DecidableEq, Repr

/-- URL built by `DeviceList._set_power_on`. -/
def powerUrl (id : String) (checked : Bool) : String :=
  "/api/device/" ++ id ++ "/power/" ++ (if checked then "on" else "off")

/-- URL built by `DeviceList._set_color`. -/
def colorUrl (id : String) (value : String) : String :=
  "/api/device/" ++ id ++ "/color/" ++ encodeURIComponent value

/-- One transition of the DeviceList system.

- `tick`: every due interval fires `this._deviceListTask.run()` — the task
  becomes pending (superseding any in-flight run) and a fetch is logged.
- `connect`: `connectedCallback` → `ensureTimerStarted` arms the 5000 ms
  interval if none is armed; the first-ever host update auto-runs the task
  (the immediate mount fetch).
- `disconnect`: `disconnectedCallback` → `ensureTimerStopped`
  (`clearInterval`, handle reset to `undefined`).
- `pollResponse`/`netError`: settle the current run via the task body; a
  settlement with no run in flight (superseded/aborted) is ignored. On
  success the render's `complete:` branch stores `this.deviceList`.
- `togglePower`/`setColor`: the fire-and-forget handlers; they only emit a
  request URL and touch no component state. -/
def step (w : World) : GEvent → World
  | .tick =>
    let fs := tickSched w.sched
    if fs.1.isEmpty then { w with sched := fs.2 }
    else
      { w with sched := fs.2,
               dl := { w.dl with status := .pending },
               fetches := w.fetches ++ fs.1.map (fun _ => fs.2.now) }
  | .connect =>
    let w1 :=
      match w.dl.timer with
      | none =>
        let is := setIntervalS w.sched 5000
        { w with sched := is.2, dl := { w.dl with timer := some is.1 } }
      | some _ => w
    if w1.dl.everRan then w1
    else
      { w1 with dl := { w1.dl with status := .pending, everRan := true },
                fetches := w1.fetches ++ [w1.sched.now] }
  | .disconnect =>
    { w with sched := clearIntervalS w.sched w.dl.timer,
             dl := { w.dl with timer := none } }
  | .pollResponse ok status body =>
    if w.dl.status = .pending then
      match deviceListTask ok status body with
      | .ok v => { w with dl := { w.dl with status := .complete v, deviceList := some v } }
      | .error e => { w with dl := { w.dl with status := .error e } }
    else w
  | .netError msg =>
    if w.dl.status = .pending then
      { w with dl := { w.dl with status := .error (.net msg) } }
    else w
  | .togglePower id checked => { w with cmds := w.cmds ++ [powerUrl id checked] }
  | .setColor id value => { w with cmds := w.cmds ++ [colorUrl id value] }

/-- A freshly constructed, not yet connected `DeviceList` in a fresh world. -/
def w0 : World :=
  { sched := ⟨0, 0, []⟩, dl := ⟨none, none, .initial, false⟩, fetches := [], cmds := [] }

/-- Run an event trace from the fresh world. -/
def runTrace (evs : List GEvent) : World := evs.foldl step w0

/-- `DeviceList.render()`: `this._deviceListTask.render({pending, complete})`.
Only the `pending:` and `complete:` callbacks are supplied, so the
`initial` and `error` statuses dispatch to no callback and render nothing
(`blank`). The `pending:` branch shows the loading placeholder only while
`this.deviceList` is still `undefined`, else re-renders the cached list;
the `complete:` branch renders the fresh payload. -/
def renderDL (c : DL) : Rendered :=
  match c.status with
  | .initial => .blank
  | .pending =>
    match c.deviceList with
    | none => .loading
    | some l => render_device_list l
  | .complete v => render_device_list v
  | .error _ => .blank

/-- Guard used by `wfFrom`: a fetch settlement event is admissible only
while a run is in flight. -/
def respGuard (w : World) : GEvent → Bool
  | .pollResponse _ _ _ => decide (w.dl.status = .pending)
  | .netError _ => decide (w.dl.status = .pending)
  | _ => true

/-- Well-formedness of a trace from a given world: a fetch settlement
(`pollResponse`/`netError`) only arrives while a run is in flight. Traces
produced by the real system are of this shape, since `fetch` settles once
per issued request. -/
def wfFrom : World → List GEvent → Bool
  | _, [] => true
  | w, e :: es => respGuard w e && wfFrom (step w e) es

/-! ## The TimeAgo directive (`timeago.js`) as a transition system -/

/-- Instance fields of `TimeAgoDirective` plus lit's `isConnected` flag.
`time` is the bound timestamp `T` (epoch ms). -/
structure TA where
  timer : Option Nat
  time : Int
  isConnected : Bool
deriving DecidableEq, Repr

/-- The directive with its environment: the timer table and the log of
displayed values — `(at, t)` records that `timeago.format(t)` was
(re)computed and committed at wall-clock instant `at` (formatting itself is
the external collaborator, §4.2). -/
structure TAWorld where
  sched : Sched
  ta : TA
  displays : List (Nat × Int)
deriving DecidableEq, Repr

/-- Events driving the directive: `update` (the host re-renders the part,
passing the bound timestamp), the two lit connection callbacks, and the
1 ms clock tick. -/
inductive TAEvent
  | update (t : Int)
  | disconnected
  | reconnected
  | tick
deriving DecidableEq, Repr

/-- `TimeAgoDirective.ensureTimerStarted`: arm a 1000 ms interval iff none
is armed. -/
def taEnsureStarted (w : TAWorld) : TAWorld :=
  match w.ta.timer with
  | some _ => w
  | none =>
    let is := setIntervalS w.sched 1000
    { w with sched := is.2, ta := { w.ta with timer := some is.1 } }

/-- One transition of the TimeAgo system.

- `update t`: stores `this.time = t`, starts the timer if connected, and
  returns `this.render(t)` — the part commits the freshly formatted value
  now.
- `disconnected`: `ensureTimerStopped` (handle reset to `undefined`).
- `reconnected`: `ensureTimerStarted` only — no value is recommitted until
  the next interval fire or host update.
- `tick`: each due interval runs `this.setValue(this.render(this.time))`,
  committing a value formatted from the current clock and stored time. -/
def taStep (w : TAWorld) : TAEvent → TAWorld
  | .update t =>
    let w1 := { w with ta := { w.ta with time := t } }
    let w2 := if w1.ta.isConnected then taEnsureStarted w1 else w1
    { w2 with displays := w2.displays ++ [(w2.sched.now, t)] }
  | .disconnected =>
    { w with sched := clearIntervalS w.sched w.ta.timer,
             ta := { w.ta with timer := none, isConnected := false } }
  | .reconnected =>
    taEnsureStarted { w with ta := { w.ta with isConnected := true } }
  | .tick =>
    let fs := tickSched w.sched
    { w with sched := fs.2,
             displays := w.displays ++ fs.1.map (fun _ => (fs.2.now, w.ta.time)) }

/-- A freshly created directive (in a connected part) in a fresh world. -/
def taw0 : TAWorld :=
  { sched := ⟨0, 0, []⟩, ta := ⟨none, 0, true⟩, displays := [] }

/-- Run a TimeAgo event trace from the fresh world. -/
def taRun (evs : List TAEvent) : TAWorld := evs.foldl taStep taw0

/-- Iterate the 1 ms tick event on the DeviceList world. -/
def tickNW (w : World) : Nat → World
  | 0 => w
  | n + 1 => tickNW (step w .tick) n

/-- Iterate the 1 ms tick event on the TimeAgo world. -/
def taTickN (w : TAWorld) : Nat → TAWorld
  | 0 => w
  | n + 1 => taTickN (taStep w .tick) n

/-- A canonical mounted session of the dashboard: the page sits idle for
`t0` ms, the component is mounted (connected), stays mounted for `m` ms,
is unmounted (disconnected), and the clock then runs on for `e` more ms. -/
def pollSession (t0 m e : Nat) : World :=
  tickNW (step (tickNW (step (tickNW w0 t0) .connect) m) .disconnect) e

/-- A canonical lifecycle of one TimeAgo label: created at `t0` and bound to
timestamp `t` by a host render, attached for `m` ms, detached for `g` ms,
then re-attached. -/
def taDetached (t : Int) (t0 m g : Nat) : TAWorld :=
  taTickN (taStep (taTickN (taStep (taTickN taw0 t0) (.update t)) m) .disconnected) g

/-- The same lifecycle continued: re-attached and left attached for `h` more
ms. -/
def taSession (t : Int) (t0 m g h : Nat) : TAWorld :=
  taTickN (taStep (taDetached t t0 m g) .reconnected) h

/-- A concrete device state used by witnesses and counterexamples. -/
def devSt : DeviceState := ⟨true, ⟨51, 102, 204⟩, "0.5", 1700000000000, "LAN"⟩

/-- A concrete device used by witnesses and counterexamples. -/
def dev1 : Device := ⟨"abc", "Desk lamp", "Den", "10.0.0.2", "H6159", some devSt⟩

/-- Does the event deliver a successful poll response? -/
def isOkResponse : GEvent → Bool
  | .pollResponse ok _ _ => ok
  | _ => false

/-- The single-timer invariant of a `DeviceList` instance: no armed handle
means no owned interval; an armed handle means exactly one owned interval
(the 5000 ms poll timer), and the task has auto-run already. -/
def InvDL (w : World) : Prop :=
  (w.dl.timer = none → w.sched.intervals = [])
  ∧ ∀ i, w.dl.timer = some i →
      (∃ nf, w.sched.intervals = [⟨i, 5000, nf⟩]) ∧ w.dl.everRan = true

/-- The single-timer invariant of a TimeAgo directive instance. -/
def InvTA (w : TAWorld) : Prop :=
  (w.ta.timer = none → w.sched.intervals = [])
  ∧ ∀ i, w.ta.timer = some i → ∃ nf, w.sched.intervals = [⟨i, 1000, nf⟩]

/-- The trace refuting C1: mount at 0 (first poll pending), first poll
succeeds with `[dev1]`, the 5000 ms timer fires a second poll, and that
poll fails with HTTP 500. -/
def cexTraceC1 : List GEvent :=
  [.connect, .pollResponse true 200 [dev1]] ++ List.replicate 5000 .tick
    ++ [.pollResponse false 500 []]

/-- The world after the first two events of `cexTraceC1`. -/
def w_ok : World :=
  ⟨⟨0, 1, [⟨0, 5000, 5000⟩]⟩, ⟨some 0, some [dev1], .complete [dev1], true⟩, [0], []⟩

/-- The world after the timer fire at 5000 ms (second poll in flight). -/
def w_pend2 : World :=
  ⟨⟨5000, 1, [⟨0, 5000, 10000⟩]⟩, ⟨some 0, some [dev1], .pending, true⟩, [0, 5000], []⟩

/-- The world after the failing second poll. -/
def w_err : World :=
  ⟨⟨5000, 1, [⟨0, 5000, 10000⟩]⟩, ⟨some 0, some [dev1], .error (.http 500), true⟩,
   [0, 5000], []⟩
end GoveeUI

namespace GoveeUI

theorem schedTickN_single (p i : Nat) (hp : 1 ≤ p) :
    ∀ (m : Nat) (s : Sched) (d : Nat), 1 ≤ d →
      s.intervals = [⟨i, p, s.now + d⟩] →
      (schedTickN s m).1
          = (if m < d then [] else (List.range ((m - d) / p + 1)).map (fun k => s.now + d + p * k))
        ∧ (schedTickN s m).2.now = s.now + m
        ∧ (schedTickN s m).2.nextId = s.nextId
        ∧ (schedTickN s m).2.intervals
          = [⟨i, p, s.now + d + p * (if m < d then 0 else (m - d) / p + 1)⟩] := by
  intro m
  induction m with
  | zero =>
    intro s d hd hs
    have h0 : (0 : Nat) < d := hd
    simp [schedTickN, hs, h0]
  | succ n ih =>
    intro s d hd hs
    have hlt1 : ¬ (n + 1 < 1) := by omega
    have hunf : schedTickN s (n + 1)
        = ((tickSched s).1.map (fun _ => (tickSched s).2.now) ++ (schedTickN (tickSched s).2 n).1,
           (schedTickN (tickSched s).2 n).2) := by
      rfl
    by_cases hd1 : d = 1
    · subst hd1
      have hfire : (tickSched s).1 = [⟨i, p, s.now + 1⟩] := by
        simp [tickSched, hs]
      have hs1 : (tickSched s).2 =
          { s with now := s.now + 1,
                   intervals := [⟨i, p, s.now + 1 + p⟩] } := by
        simp [tickSched, hs]
      have hs1i : (tickSched s).2.intervals = [⟨i, p, (tickSched s).2.now + p⟩] := by
        rw [hs1]
      obtain ⟨ih1, ih2, ih3, ih4⟩ := ih (tickSched s).2 p hp hs1i
      have hnow1 : (tickSched s).2.now = s.now + 1 := by rw [hs1]
      have hid1 : (tickSched s).2.nextId = s.nextId := by rw [hs1]
      rw [hunf]
      refine ⟨?_, ?_, ?_, ?_⟩
      · show (tickSched s).1.map (fun _ => (tickSched s).2.now) ++ (schedTickN (tickSched s).2 n).1 = _
        rw [hfire, ih1, hnow1, if_neg hlt1, Nat.succ_sub_one]
        by_cases hnp : n < p
        · rw [if_pos hnp, Nat.div_eq_of_lt hnp,
            show List.range 1 = [0] from rfl]
          simp
        · have hdiv : n / p = (n - p) / p + 1 :=
            Nat.div_eq_sub_div hp (Nat.le_of_not_lt hnp)
          rw [if_neg hnp, hdiv]
          conv_rhs => rw [List.range_succ_eq_map, List.map_cons, List.map_map]
          simp only [List.map_cons, List.map_nil, List.singleton_append]
          refine List.cons_eq_cons.mpr ⟨by simp, ?_⟩
          congr 1
          funext k
          simp only [Function.comp_apply, Nat.succ_eq_add_one]
          ring
      · show (schedTickN (tickSched s).2 n).2.now = _
        rw [ih2, hnow1]; omega
      · show (schedTickN (tickSched s).2 n).2.nextId = _
        rw [ih3, hid1]
      · show (schedTickN (tickSched s).2 n).2.intervals = _
        rw [ih4, hnow1, if_neg hlt1, Nat.succ_sub_one]
        by_cases hnp : n < p
        · rw [if_pos hnp, Nat.div_eq_of_lt hnp]
          refine List.cons_eq_cons.mpr ⟨?_, rfl⟩
          congr 1
          ring
        · have hdiv : n / p = (n - p) / p + 1 :=
            Nat.div_eq_sub_div hp (Nat.le_of_not_lt hnp)
          rw [if_neg hnp, hdiv]
          refine List.cons_eq_cons.mpr ⟨?_, rfl⟩
          congr 1
          ring
    · have hd2 : 2 ≤ d := by omega
      have hcond : ¬ (s.now + d = s.now + 1) := by omega
      have hfire : (tickSched s).1 = [] := by
        simp [tickSched, hs, hcond]
      have hs1 : (tickSched s).2 = { s with now := s.now + 1 } := by
        simp [tickSched, Sched.mk.injEq, hs, hcond]
      have hs1i : (tickSched s).2.intervals = [⟨i, p, (tickSched s).2.now + (d - 1)⟩] := by
        rw [hs1]
        show s.intervals = [⟨i, p, s.now + 1 + (d - 1)⟩]
        rw [hs]
        refine List.cons_eq_cons.mpr ⟨?_, rfl⟩
        congr 1
        omega
      obtain ⟨ih1, ih2, ih3, ih4⟩ := ih (tickSched s).2 (d - 1) (by omega) hs1i
      have hnow1 : (tickSched s).2.now = s.now + 1 := by rw [hs1]
      have hid1 : (tickSched s).2.nextId = s.nextId := by rw [hs1]
      have harg : s.now + 1 + (d - 1) = s.now + d := by omega
      have hsub : n - (d - 1) = n + 1 - d := by omega
      rw [hunf]
      refine ⟨?_, ?_, ?_, ?_⟩
      · show (tickSched s).1.map (fun _ => (tickSched s).2.now) ++ (schedTickN (tickSched s).2 n).1 = _
        rw [hfire, ih1, hnow1, harg, hsub]
        simp only [List.map_nil, List.nil_append]
        by_cases hnd : n < d - 1
        · rw [if_pos hnd, if_pos (by omega : n + 1 < d)]
        · rw [if_neg hnd, if_neg (by omega : ¬ (n + 1 < d))]
      · show (schedTickN (tickSched s).2 n).2.now = _
        rw [ih2, hnow1]; omega
      · show (schedTickN (tickSched s).2 n).2.nextId = _
        rw [ih3, hid1]
      · show (schedTickN (tickSched s).2 n).2.intervals = _
        rw [ih4, hnow1, harg, hsub]
        by_cases hnd : n < d - 1
        · rw [if_pos hnd, if_pos (by omega : n + 1 < d)]
        · rw [if_neg hnd, if_neg (by omega : ¬ (n + 1 < d))]

theorem schedTickN_nil :
    ∀ (m : Nat) (s : Sched), s.intervals = [] →
      (schedTickN s m).1 = [] ∧ (schedTickN s m).2 = { s with now := s.now + m } := by
  intro m
  induction m with
  | zero => intro s hs; exact ⟨rfl, rfl⟩
  | succ n ih =>
    intro s hs
    have hfire : (tickSched s).1 = [] := by simp [tickSched, hs]
    have hs1 : (tickSched s).2 = { s with now := s.now + 1 } := by
      simp [tickSched, Sched.mk.injEq, hs]
    have hs1i : (tickSched s).2.intervals = [] := by rw [hs1]; exact hs
    obtain ⟨ih1, ih2⟩ := ih (tickSched s).2 hs1i
    have hunf : schedTickN s (n + 1)
        = ((tickSched s).1.map (fun _ => (tickSched s).2.now) ++ (schedTickN (tickSched s).2 n).1,
           (schedTickN (tickSched s).2 n).2) := rfl
    rw [hunf]
    refine ⟨?_, ?_⟩
    · show (tickSched s).1.map (fun _ => (tickSched s).2.now) ++ (schedTickN (tickSched s).2 n).1 = []
      rw [hfire, ih1]; rfl
    · show (schedTickN (tickSched s).2 n).2 = _
      rw [ih2, hs1]
      simp [Sched.mk.injEq]
      omega

end GoveeUI

namespace GoveeUI

theorem tickNW_spec :
    ∀ (n : Nat) (w : World),
      tickNW w n
        = { w with sched := (schedTickN w.sched n).2,
                   dl := if (schedTickN w.sched n).1.isEmpty then w.dl
                         else { w.dl with status := .pending },
                   fetches := w.fetches ++ (schedTickN w.sched n).1 } := by
  intro n
  induction n with
  | zero =>
    intro w
    simp [tickNW, schedTickN]
  | succ n ih =>
    intro w
    show tickNW (step w .tick) n = _
    rw [ih (step w .tick)]
    have hunf : schedTickN w.sched (n + 1)
        = ((tickSched w.sched).1.map (fun _ => (tickSched w.sched).2.now)
             ++ (schedTickN (tickSched w.sched).2 n).1,
           (schedTickN (tickSched w.sched).2 n).2) := rfl
    rw [hunf]
    by_cases hf : (tickSched w.sched).1.isEmpty
    · have hstep : step w .tick = { w with sched := (tickSched w.sched).2 } := by
        show (if (tickSched w.sched).1.isEmpty then _ else _) = _
        rw [if_pos hf]
      rw [hstep]
      have hmap : (tickSched w.sched).1.map (fun _ => (tickSched w.sched).2.now) = [] := by
        rw [List.isEmpty_iff.mp hf]; rfl
      simp [hmap]
    · have hstep : step w .tick
          = { w with sched := (tickSched w.sched).2,
                     dl := { w.dl with status := .pending },
                     fetches := w.fetches
                       ++ (tickSched w.sched).1.map (fun _ => (tickSched w.sched).2.now) } := by
        show (if (tickSched w.sched).1.isEmpty then _ else _) = _
        rw [if_neg hf]
      rw [hstep]
      have hne : ((tickSched w.sched).1.map (fun _ => (tickSched w.sched).2.now)
          ++ (schedTickN (tickSched w.sched).2 n).1).isEmpty = false := by
        cases hl : (tickSched w.sched).1 with
        | nil => rw [hl] at hf; exact absurd rfl hf
        | cons a as => rfl
      rw [hne]
      simp [List.append_assoc]

end GoveeUI

namespace GoveeUI

theorem taTickN_spec :
    ∀ (n : Nat) (w : TAWorld),
      taTickN w n
        = { w with sched := (schedTickN w.sched n).2,
                   displays := w.displays
                     ++ (schedTickN w.sched n).1.map (fun t => (t, w.ta.time)) } := by
  intro n
  induction n with
  | zero =>
    intro w
    simp [taTickN, schedTickN]
  | succ n ih =>
    intro w
    show taTickN (taStep w .tick) n = _
    rw [ih (taStep w .tick)]
    have hunf : schedTickN w.sched (n + 1)
        = ((tickSched w.sched).1.map (fun _ => (tickSched w.sched).2.now)
             ++ (schedTickN (tickSched w.sched).2 n).1,
           (schedTickN (tickSched w.sched).2 n).2) := rfl
    rw [hunf]
    have hstep : taStep w .tick
        = { w with sched := (tickSched w.sched).2,
                   displays := w.displays
                     ++ (tickSched w.sched).1.map
                         (fun _ => ((tickSched w.sched).2.now, w.ta.time)) } := rfl
    rw [hstep]
    simp [List.map_append, List.map_map, List.append_assoc, Function.comp]

end GoveeUI

namespace GoveeUI

/-- The C3 claim: in a session mounted at `t0` and unmounted `m` ms later,
the list fetches happen exactly at the mount instant and then at every
elapsed 5000 ms interval while mounted — no extra and no missing fetches —
and after unmount the timer is disarmed (handle `undefined`, no interval
left), so no further list fetch ever originates, however long the clock
runs on (`e`). -/
theorem C3_polling_cadence (t0 m e : Nat) :
    (pollSession t0 m e).fetches
      = t0 :: (List.range (m / 5000)).map (fun k => t0 + 5000 * (k + 1))
    ∧ (pollSession t0 m e).sched.intervals = []
    ∧ (pollSession t0 m e).dl.timer = none := by
  have hw1 : tickNW w0 t0 = ⟨⟨t0, 0, []⟩, ⟨none, none, .initial, false⟩, [], []⟩ := by
    rw [tickNW_spec]
    obtain ⟨h1, h2⟩ := schedTickN_nil t0 w0.sched rfl
    rw [h1, h2]
    simp [w0]
  have hw2 : step (tickNW w0 t0) .connect
      = ⟨⟨t0, 1, [⟨0, 5000, t0 + 5000⟩]⟩, ⟨some 0, none, .pending, true⟩, [t0], []⟩ := by
    rw [hw1]
    rfl
  obtain ⟨hf3, hn3, hi3, hv3⟩ :=
    schedTickN_single 5000 0 (by omega) m ⟨t0, 1, [⟨0, 5000, t0 + 5000⟩]⟩ 5000 (by omega) rfl
  have hw3 : tickNW (step (tickNW w0 t0) .connect) m
      = ⟨(schedTickN ⟨t0, 1, [⟨0, 5000, t0 + 5000⟩]⟩ m).2,
         ⟨some 0, none, .pending, true⟩,
         [t0] ++ (schedTickN ⟨t0, 1, [⟨0, 5000, t0 + 5000⟩]⟩ m).1, []⟩ := by
    rw [hw2, tickNW_spec]
    cases (schedTickN ⟨t0, 1, [⟨0, 5000, t0 + 5000⟩]⟩ m).1.isEmpty <;> simp
  have hsched3 : (schedTickN ⟨t0, 1, [⟨0, 5000, t0 + 5000⟩]⟩ m).2
      = ⟨t0 + m, 1,
         [⟨0, 5000, t0 + 5000 + 5000 * (if m < 5000 then 0 else (m - 5000) / 5000 + 1)⟩]⟩ := by
    have := hv3
    have h2 := hn3
    have h3 := hi3
    cases hx : (schedTickN ⟨t0, 1, [⟨0, 5000, t0 + 5000⟩]⟩ m).2 with
    | mk a b c =>
      rw [hx] at this h2 h3
      simp at this h2 h3
      rw [h2, h3, this]
      by_cases hm : m < 5000 <;> simp [hm]
  have hw4 : step (tickNW (step (tickNW w0 t0) .connect) m) .disconnect
      = ⟨⟨t0 + m, 1, []⟩, ⟨none, none, .pending, true⟩,
         [t0] ++ (schedTickN ⟨t0, 1, [⟨0, 5000, t0 + 5000⟩]⟩ m).1, []⟩ := by
    rw [hw3, hsched3]
    rfl
  have hw5 : pollSession t0 m e
      = ⟨⟨t0 + m + e, 1, []⟩, ⟨none, none, .pending, true⟩,
         [t0] ++ (schedTickN ⟨t0, 1, [⟨0, 5000, t0 + 5000⟩]⟩ m).1, []⟩ := by
    show tickNW (step (tickNW (step (tickNW w0 t0) .connect) m) .disconnect) e = _
    rw [hw4, tickNW_spec]
    obtain ⟨h1, h2⟩ := schedTickN_nil e ⟨t0 + m, 1, []⟩ rfl
    rw [h1, h2]
    simp
  rw [hw5]
  refine ⟨?_, rfl, rfl⟩
  show [t0] ++ (schedTickN ⟨t0, 1, [⟨0, 5000, t0 + 5000⟩]⟩ m).1 = _
  rw [hf3]
  by_cases hm : m < 5000
  · rw [if_pos hm]
    have : m / 5000 = 0 := Nat.div_eq_of_lt hm
    rw [this]
    rfl
  · rw [if_neg hm]
    have hdiv : m / 5000 = (m - 5000) / 5000 + 1 :=
      Nat.div_eq_sub_div (by omega) (Nat.le_of_not_lt hm)
    rw [hdiv, List.singleton_append]
    refine List.cons_eq_cons.mpr ⟨rfl, ?_⟩
    congr 1
    funext k
    ring

end GoveeUI

namespace GoveeUI

theorem taSession_spec (t : Int) (t0 m g h : Nat) :
    (taSession t t0 m g h).displays
      = (t0, t) :: ((List.range (m / 1000)).map (fun k => (t0 + 1000 * (k + 1), t))
          ++ (List.range (h / 1000)).map (fun k => (t0 + m + g + 1000 * (k + 1), t)))
    ∧ (taDetached t t0 m g).displays
      = (t0, t) :: (List.range (m / 1000)).map (fun k => (t0 + 1000 * (k + 1), t))
    ∧ (taStep (taDetached t t0 m g) .reconnected).ta.timer = some 1
    ∧ (taStep (taDetached t t0 m g) .reconnected).sched.intervals
      = [⟨1, 1000, t0 + m + g + 1000⟩] := by
  have ha1 : taTickN taw0 t0 = ⟨⟨t0, 0, []⟩, ⟨none, 0, true⟩, []⟩ := by
    rw [taTickN_spec]
    obtain ⟨h1, h2⟩ := schedTickN_nil t0 taw0.sched rfl
    rw [h1, h2]
    simp [taw0]
  have ha2 : taStep (taTickN taw0 t0) (.update t)
      = ⟨⟨t0, 1, [⟨0, 1000, t0 + 1000⟩]⟩, ⟨some 0, t, true⟩, [(t0, t)]⟩ := by
    rw [ha1]
    rfl
  obtain ⟨hf3, hn3, hi3, hv3⟩ :=
    schedTickN_single 1000 0 (by omega) m ⟨t0, 1, [⟨0, 1000, t0 + 1000⟩]⟩ 1000 (by omega) rfl
  have hfires : (schedTickN ⟨t0, 1, [⟨0, 1000, t0 + 1000⟩]⟩ m).1.map (fun x => (x, t))
      = (List.range (m / 1000)).map (fun k => (t0 + 1000 * (k + 1), t)) := by
    rw [hf3]
    by_cases hm : m < 1000
    · rw [if_pos hm, Nat.div_eq_of_lt hm]
      rfl
    · rw [if_neg hm, Nat.div_eq_sub_div (by omega) (Nat.le_of_not_lt hm), List.map_map]
      congr 1
      funext k
      simp only [Function.comp_apply]
      refine Prod.ext ?_ rfl
      show t0 + 1000 + 1000 * k = t0 + 1000 * (k + 1)
      ring
  have hsched3 : (schedTickN ⟨t0, 1, [⟨0, 1000, t0 + 1000⟩]⟩ m).2
      = ⟨t0 + m, 1,
         [⟨0, 1000, t0 + 1000 + 1000 * (if m < 1000 then 0 else (m - 1000) / 1000 + 1)⟩]⟩ := by
    cases hx : (schedTickN ⟨t0, 1, [⟨0, 1000, t0 + 1000⟩]⟩ m).2 with
    | mk a b c =>
      rw [hx] at hn3 hi3 hv3
      simp at hn3 hi3 hv3
      rw [hn3, hi3, hv3]
      by_cases hm : m < 1000 <;> simp [hm]
  have ha3 : taTickN (taStep (taTickN taw0 t0) (.update t)) m
      = ⟨⟨t0 + m, 1,
          [⟨0, 1000, t0 + 1000 + 1000 * (if m < 1000 then 0 else (m - 1000) / 1000 + 1)⟩]⟩,
         ⟨some 0, t, true⟩,
         (t0, t) :: (List.range (m / 1000)).map (fun k => (t0 + 1000 * (k + 1), t))⟩ := by
    rw [ha2, taTickN_spec]
    show (⟨(schedTickN ⟨t0, 1, [⟨0, 1000, t0 + 1000⟩]⟩ m).2, ⟨some 0, t, true⟩,
        [(t0, t)] ++ (schedTickN ⟨t0, 1, [⟨0, 1000, t0 + 1000⟩]⟩ m).1.map (fun x => (x, t))⟩
        : TAWorld) = _
    rw [hsched3, hfires]
    rfl
  have ha4 : taStep (taTickN (taStep (taTickN taw0 t0) (.update t)) m) .disconnected
      = ⟨⟨t0 + m, 1, []⟩, ⟨none, t, false⟩,
         (t0, t) :: (List.range (m / 1000)).map (fun k => (t0 + 1000 * (k + 1), t))⟩ := by
    rw [ha3]
    rfl
  have ha5 : taDetached t t0 m g
      = ⟨⟨t0 + m + g, 1, []⟩, ⟨none, t, false⟩,
         (t0, t) :: (List.range (m / 1000)).map (fun k => (t0 + 1000 * (k + 1), t))⟩ := by
    show taTickN (taStep (taTickN (taStep (taTickN taw0 t0) (.update t)) m) .disconnected) g = _
    rw [ha4, taTickN_spec]
    obtain ⟨h1, h2⟩ := schedTickN_nil g ⟨t0 + m, 1, []⟩ rfl
    rw [h1, h2]
    simp
  have ha6 : taStep (taDetached t t0 m g) .reconnected
      = ⟨⟨t0 + m + g, 2, [⟨1, 1000, t0 + m + g + 1000⟩]⟩, ⟨some 1, t, true⟩,
         (t0, t) :: (List.range (m / 1000)).map (fun k => (t0 + 1000 * (k + 1), t))⟩ := by
    rw [ha5]
    rfl
  obtain ⟨hf7, hn7, hi7, hv7⟩ :=
    schedTickN_single 1000 1 (by omega) h ⟨t0 + m + g, 2, [⟨1, 1000, t0 + m + g + 1000⟩]⟩
      1000 (by omega) rfl
  have hfires7 : (schedTickN ⟨t0 + m + g, 2, [⟨1, 1000, t0 + m + g + 1000⟩]⟩ h).1.map
        (fun x => (x, t))
      = (List.range (h / 1000)).map (fun k => (t0 + m + g + 1000 * (k + 1), t)) := by
    rw [hf7]
    by_cases hh : h < 1000
    · rw [if_pos hh, Nat.div_eq_of_lt hh]
      rfl
    · rw [if_neg hh, Nat.div_eq_sub_div (by omega) (Nat.le_of_not_lt hh), List.map_map]
      congr 1
      funext k
      simp only [Function.comp_apply]
      refine Prod.ext ?_ rfl
      show t0 + m + g + 1000 + 1000 * k = t0 + m + g + 1000 * (k + 1)
      ring
  have ha7 : (taSession t t0 m g h).displays
      = ((t0, t) :: (List.range (m / 1000)).map (fun k => (t0 + 1000 * (k + 1), t)))
        ++ (List.range (h / 1000)).map (fun k => (t0 + m + g + 1000 * (k + 1), t)) := by
    show (taTickN (taStep (taDetached t t0 m g) .reconnected) h).displays = _
    rw [ha6, taTickN_spec]
    show ((t0, t) :: (List.range (m / 1000)).map (fun k => (t0 + 1000 * (k + 1), t)))
        ++ (schedTickN ⟨t0 + m + g, 2, [⟨1, 1000, t0 + m + g + 1000⟩]⟩ h).1.map
            (fun x => (x, t)) = _
    rw [hfires7]
  refine ⟨?_, ?_, ?_, ?_⟩
  · rw [ha7]
    simp
  · rw [ha5]
  · rw [ha6]
  · rw [ha6]

end GoveeUI

namespace GoveeUI

/-- Disjoint-bit decomposition: a left shift or-ed with a small remainder is
plain positional arithmetic. This is what makes the JS expression
`(r << 16) | (g << 8) | b` equal to `r·65536 + g·256 + b` for byte-sized
components. -/
theorem shl_or_add (a b n : Nat) (hb : b < 2 ^ n) : a <<< n ||| b = a * 2 ^ n + b := by
  apply Nat.eq_of_testBit_eq
  intro i
  rw [Nat.testBit_lor, Nat.testBit_shiftLeft]
  rcases Nat.lt_or_ge i n with h | h
  · have h1 : decide (i ≥ n) = false := by simp [Nat.not_le.mpr h]
    rw [h1, Bool.false_and, Bool.false_or, Nat.testBit_to_div_mod, Nat.testBit_to_div_mod]
    have hsplit : a * 2 ^ n = 2 ^ i * (2 * (a * 2 ^ (n - i - 1))) := by
      have hpow : 2 ^ n = 2 ^ i * 2 * 2 ^ (n - i - 1) := by
        rw [Nat.mul_assoc, ← Nat.pow_succ', ← Nat.pow_add]
        congr 1
        omega
      rw [hpow]; ring
    rw [hsplit, Nat.mul_add_div (Nat.two_pow_pos i), Nat.mul_add_mod]
  · have h1 : decide (i ≥ n) = true := by simp [h]
    rw [h1, Bool.true_and]
    have hbi : b.testBit i = false :=
      Nat.testBit_eq_false_of_lt (lt_of_lt_of_le hb (Nat.pow_le_pow_right (by omega) h))
    rw [hbi, Bool.or_false, Nat.testBit_to_div_mod, Nat.testBit_to_div_mod]
    have hdv : (a * 2 ^ n + b) / 2 ^ i = a / 2 ^ (i - n) := by
      have hi : 2 ^ i = 2 ^ n * 2 ^ (i - n) := by
        rw [← Nat.pow_add]; congr 1; omega
      rw [hi, ← Nat.div_div_eq_div_mul, Nat.mul_comm a (2 ^ n),
        Nat.mul_add_div (Nat.two_pow_pos n), Nat.div_eq_of_lt hb, Nat.add_zero]
    rw [hdv]

theorem toHexList_length_le : ∀ (k n : Nat), 1 ≤ k → n < 16 ^ k → (toHexList n).length ≤ k := by
  intro k
  induction k with
  | zero => omega
  | succ k ih =>
    intro n _ hn
    rw [toHexList]
    by_cases h16 : n < 16
    · rw [dif_pos h16]
      simp
    · rw [dif_neg h16]
      have hk1 : 1 ≤ k := by
        by_contra hk0
        have : k = 0 := by omega
        subst this
        simp at hn
        omega
      have hdiv : n / 16 < 16 ^ k := by
        rw [Nat.div_lt_iff_lt_mul (by omega)]
        calc n < 16 ^ (k + 1) := hn
        _ = 16 ^ k * 16 := by rw [Nat.pow_succ]
      have := ih (n / 16) hk1 hdiv
      simp [List.length_append]
      omega

theorem hexDigitChar_lower : ∀ n, n < 16 → (hexDigitChar n).isUpper = false := by decide

theorem toHexList_lower : ∀ n, ∀ c ∈ toHexList n, c.isUpper = false := by
  intro n
  induction n using Nat.strong_induction_on with
  | _ n ih =>
    intro c hc
    rw [toHexList] at hc
    by_cases h16 : n < 16
    · rw [dif_pos h16] at hc
      simp at hc
      rw [hc]
      exact hexDigitChar_lower n h16
    · rw [dif_neg h16] at hc
      rcases List.mem_append.mp hc with h | h
      · exact ih (n / 16) (Nat.div_lt_self (by omega) (by omega)) c h
      · simp at h
        rw [h]
        exact hexDigitChar_lower (n % 16) (Nat.mod_lt n (by omega))

end GoveeUI

namespace GoveeUI

/-- The C9 claim, stated over the embedded `_render_item`. The spec-side
value is the literal "`'#'` followed by the 6-digit zero-padded lowercase
hexadecimal of `r·65536 + g·256 + b`". -/
theorem C9_color_hex (d : Device) (st : DeviceState)
    (hs : d.state = some st)
    (hr : st.color.r < 256) (hg : st.color.g < 256) (hb : st.color.b < 256) :
    (render_item d).color_value
      = "#" ++ padStart (toHex (st.color.r * 65536 + st.color.g * 256 + st.color.b)) 6 '0'
    ∧ (render_item d).color_value.length = 7
    ∧ (render_item d).color_value.data.all (fun c => !c.isUpper) = true := by
  have hcv : st.color.r <<< 16 ||| st.color.g <<< 8 ||| st.color.b
      = st.color.r * 65536 + st.color.g * 256 + st.color.b := by
    rw [Nat.lor_assoc, shl_or_add st.color.g st.color.b 8 (by norm_num; omega),
      shl_or_add st.color.r _ 16 (by norm_num; omega)]
    norm_num
    ring
  have hval : (render_item d).color_value
      = "#" ++ padStart (toHex (st.color.r * 65536 + st.color.g * 256 + st.color.b)) 6 '0' := by
    simp only [render_item, hs]
    rw [hcv]
  have hlen6 : (toHexList (st.color.r * 65536 + st.color.g * 256 + st.color.b)).length ≤ 6 := by
    apply toHexList_length_le 6 _ (by omega)
    norm_num
    omega
  refine ⟨hval, ?_, ?_⟩
  · rw [hval, String.length_append]
    show 1 + (padStart (toHex _) 6 '0').length = 7
    show 1 + (List.replicate (6 - (toHexList _).length) '0' ++ toHexList _).length = 7
    rw [List.length_append, List.length_replicate]
    omega
  · rw [hval]
    rw [List.all_eq_true]
    intro c hc
    rw [String.data_append] at hc
    rcases List.mem_append.mp hc with h | h
    · have : c = '#' := by simpa using h
      rw [this]
      decide
    · have hc2 : c ∈ List.replicate (6 - (toHexList _).length) '0' ++ toHexList _ := h
      rcases List.mem_append.mp hc2 with h2 | h2
      · have : c = '0' := (List.mem_replicate.mp h2).2
        rw [this]
        decide
      · simp [toHexList_lower _ c h2]

end GoveeUI

namespace GoveeUI

/-- Witness for `C9_color_hex` at the concrete colour `(51, 102, 204)`. -/
theorem C9_color_hex_witness :
    dev1.state = some devSt
    ∧ devSt.color.r < 256 ∧ devSt.color.g < 256 ∧ devSt.color.b < 256
    ∧ ((render_item dev1).color_value
        = "#" ++ padStart (toHex (devSt.color.r * 65536 + devSt.color.g * 256 + devSt.color.b)) 6 '0'
      ∧ (render_item dev1).color_value.length = 7
      ∧ (render_item dev1).color_value.data.all (fun c => !c.isUpper) = true) :=
  ⟨rfl, by decide, by decide, by decide,
   C9_color_hex dev1 devSt rfl (by decide) (by decide) (by decide)⟩

/-- The C4 claim: a successful poll landing on any world (whatever list a
previous poll rendered) renders exactly the fresh payload's rows, in order
— wholesale replacement, no merging with the previous snapshot. -/
theorem C4_snapshot_replacement (w : World) (s : Nat) (L2 : List Device)
    (hp : w.dl.status = .pending) :
    renderDL (step w (.pollResponse true s L2)).dl = render_device_list L2
    ∧ render_device_list L2 = .table (L2.map render_item)
    ∧ (step w (.pollResponse true s L2)).dl.deviceList = some L2 := by
  refine ⟨?_, rfl, ?_⟩ <;> simp [step, hp, deviceListTask, renderDL]

/-- Witness for `C4_snapshot_replacement`: a pending world that previously
rendered `[dev1]` receives the new one-element list whose device has no
state; the rendered table is exactly the new list's rows. -/
theorem C4_snapshot_replacement_witness :
    ({ w0 with dl := ⟨some 0, some [dev1], .pending, true⟩ } : World).dl.status = .pending
    ∧ (renderDL (step { w0 with dl := ⟨some 0, some [dev1], .pending, true⟩ }
          (.pollResponse true 200 [⟨"z9", "Strip", "Loft", "10.0.0.9", "H6199", none⟩])).dl
        = render_device_list [⟨"z9", "Strip", "Loft", "10.0.0.9", "H6199", none⟩]
      ∧ render_device_list [⟨"z9", "Strip", "Loft", "10.0.0.9", "H6199", none⟩]
        = .table ([⟨"z9", "Strip", "Loft", "10.0.0.9", "H6199", none⟩].map render_item)
      ∧ (step { w0 with dl := ⟨some 0, some [dev1], .pending, true⟩ }
          (.pollResponse true 200 [⟨"z9", "Strip", "Loft", "10.0.0.9", "H6199", none⟩])).dl.deviceList
        = some [⟨"z9", "Strip", "Loft", "10.0.0.9", "H6199", none⟩]) :=
  ⟨rfl, C4_snapshot_replacement { w0 with dl := ⟨some 0, some [dev1], .pending, true⟩ }
    200 [⟨"z9", "Strip", "Loft", "10.0.0.9", "H6199", none⟩] rfl⟩

/-- The C6 claim: a non-ok response drives the task into the `error` state
whose cause carries the failing status code; an ok response yields the
parsed payload as the `complete` value (and the render stores it). -/
theorem C6_response_status (w : World) (s : Nat) (b : List Device)
    (hp : w.dl.status = .pending) :
    (step w (.pollResponse false s b)).dl.status = .error (.http s)
    ∧ (step w (.pollResponse true s b)).dl.status = .complete b
    ∧ (step w (.pollResponse true s b)).dl.deviceList = some b := by
  refine ⟨?_, ?_, ?_⟩ <;> simp [step, hp, deviceListTask]

/-- Witness for `C6_response_status` on a freshly mounted (pending) world
with status code 503. -/
theorem C6_response_status_witness :
    (runTrace [.connect]).dl.status = .pending
    ∧ ((step (runTrace [.connect]) (.pollResponse false 503 [dev1])).dl.status
        = .error (.http 503)
      ∧ (step (runTrace [.connect]) (.pollResponse true 503 [dev1])).dl.status
        = .complete [dev1]
      ∧ (step (runTrace [.connect]) (.pollResponse true 503 [dev1])).dl.deviceList
        = some [dev1]) :=
  ⟨rfl, C6_response_status (runTrace [.connect]) 503 [dev1] rfl⟩

/-- The C7 claim: a power toggle emits exactly one command request — the
`on`/`off` URL for that device — retries nothing, and changes no component
state (same task status, same stored list, same timers, same render: no
optimistic update); the checked state of any rendered row comes only from
that device's polled `state.on` (unchecked when `state` is absent). -/
theorem C7_power_command (w : World) (id : String) (checked : Bool) (d : Device) :
    (step w (.togglePower id checked)).cmds = w.cmds ++ [powerUrl id checked]
    ∧ powerUrl "abc" true = "/api/device/abc/power/on"
    ∧ powerUrl "abc" false = "/api/device/abc/power/off"
    ∧ (step w (.togglePower id checked)).dl = w.dl
    ∧ (step w (.togglePower id checked)).fetches = w.fetches
    ∧ (step w (.togglePower id checked)).sched = w.sched
    ∧ renderDL (step w (.togglePower id checked)).dl = renderDL w.dl
    ∧ (render_item d).power_checked
      = (match d.state with | some st => st.«on» | none => false) := by
  refine ⟨rfl, rfl, rfl, rfl, rfl, rfl, rfl, rfl⟩

/-- The C8 claim: a colour selection emits exactly one command request,
whose path segment is the percent-encoded selected value, and changes no
component state; and the encoding round-trips — `#3366CC` percent-decodes
back to itself and parses to `r = 51`, `g = 102`, `b = 204`. -/
theorem C8_color_command_roundtrip (w : World) (id : String) (v : String) :
    (step w (.setColor id v)).cmds = w.cmds ++ [colorUrl id v]
    ∧ colorUrl id v = "/api/device/" ++ id ++ "/color/" ++ encodeURIComponent v
    ∧ (step w (.setColor id v)).dl = w.dl
    ∧ encodeURIComponent "#3366CC" = "%233366CC"
    ∧ percentDecode (encodeURIComponent "#3366CC") = some "#3366CC"
    ∧ parseHexColor "#3366CC" = some ⟨51, 102, 204⟩ := by
  refine ⟨rfl, rfl, rfl, by decide, by decide, by decide⟩

end GoveeUI

namespace GoveeUI

theorem step_deviceList_eq (w : World) (e : GEvent) (h : isOkResponse e = false) :
    (step w e).dl.deviceList = w.dl.deviceList := by
  cases e with
  | tick =>
    simp only [step]
    split <;> rfl
  | connect =>
    simp only [step]
    cases hx : w.dl.timer <;> simp only [hx] <;> split <;> rfl
  | disconnect => rfl
  | pollResponse ok s b =>
    have hok : ok = false := h
    subst hok
    simp only [step]
    split <;> rfl
  | netError m =>
    simp only [step]
    split <;> rfl
  | togglePower id c => rfl
  | setColor id v => rfl

theorem foldl_deviceList_none :
    ∀ (evs : List GEvent) (w : World), wfFrom w evs = true →
      ((List.foldl step w evs).dl.deviceList = none
        ↔ (w.dl.deviceList = none ∧ evs.all (fun e => !isOkResponse e) = true)) := by
  intro evs
  induction evs with
  | nil => intro w _; simp
  | cons e es ih =>
    intro w hwf
    rw [wfFrom, Bool.and_eq_true] at hwf
    obtain ⟨hg, hwf2⟩ := hwf
    rw [List.foldl_cons, ih (step w e) hwf2, List.all_cons]
    cases e with
    | pollResponse ok s b =>
      have hpend : w.dl.status = .pending := of_decide_eq_true hg
      cases ok with
      | true =>
        have hset : (step w (.pollResponse true s b)).dl.deviceList = some b := by
          simp [step, hpend, deviceListTask]
        rw [hset]
        simp [isOkResponse]
      | false =>
        rw [step_deviceList_eq w (.pollResponse false s b) rfl]
        simp [isOkResponse]
    | tick =>
      rw [step_deviceList_eq w .tick rfl]
      simp [isOkResponse]
    | connect =>
      rw [step_deviceList_eq w .connect rfl]
      simp [isOkResponse]
    | disconnect =>
      rw [step_deviceList_eq w .disconnect rfl]
      simp [isOkResponse]
    | netError m =>
      rw [step_deviceList_eq w (.netError m) rfl]
      simp [isOkResponse]
    | togglePower id c =>
      rw [step_deviceList_eq w (.togglePower id c) rfl]
      simp [isOkResponse]
    | setColor id v =>
      rw [step_deviceList_eq w (.setColor id v) rfl]
      simp [isOkResponse]

end GoveeUI

namespace GoveeUI

/-- The C5 claim: along any well-formed trace, while a poll is pending the
component renders the cached list when one exists and the loading
placeholder exactly when no poll has ever succeeded (the stored
`deviceList` is still `undefined`). -/
theorem C5_pending_render (evs : List GEvent)
    (hwf : wfFrom w0 evs = true)
    (hp : (runTrace evs).dl.status = .pending) :
    renderDL (runTrace evs).dl
      = (match (runTrace evs).dl.deviceList with
         | none => Rendered.loading
         | some l => render_device_list l)
    ∧ ((runTrace evs).dl.deviceList = none
        ↔ evs.all (fun e => !isOkResponse e) = true)
    ∧ (renderDL (runTrace evs).dl = .loading
        ↔ evs.all (fun e => !isOkResponse e) = true) := by
  have hiff : (runTrace evs).dl.deviceList = none
      ↔ evs.all (fun e => !isOkResponse e) = true := by
    have h := foldl_deviceList_none evs w0 hwf
    simpa [runTrace, w0] using h
  have hload : renderDL (runTrace evs).dl = .loading
      ↔ (runTrace evs).dl.deviceList = none := by
    cases hdl : (runTrace evs).dl.deviceList <;>
      simp [renderDL, hp, hdl, render_device_list]
  refine ⟨?_, hiff, hload.trans hiff⟩
  cases hdl : (runTrace evs).dl.deviceList <;> simp [renderDL, hp, hdl]

/-- Witness for `C5_pending_render`: the freshly mounted component (first
poll pending, nothing cached) shows the loading placeholder. -/
theorem C5_pending_render_witness :
    wfFrom w0 [GEvent.connect] = true
    ∧ (runTrace [GEvent.connect]).dl.status = .pending
    ∧ (renderDL (runTrace [GEvent.connect]).dl
        = (match (runTrace [GEvent.connect]).dl.deviceList with
           | none => Rendered.loading
           | some l => render_device_list l)
      ∧ ((runTrace [GEvent.connect]).dl.deviceList = none
          ↔ [GEvent.connect].all (fun e => !isOkResponse e) = true)
      ∧ (renderDL (runTrace [GEvent.connect]).dl = .loading
          ↔ [GEvent.connect].all (fun e => !isOkResponse e) = true)) :=
  ⟨rfl, rfl, C5_pending_render [GEvent.connect] rfl rfl⟩

end GoveeUI

namespace GoveeUI

theorem invDL_step (w : World) (e : GEvent) (h : InvDL w) : InvDL (step w e) := by
  obtain ⟨h0, h1⟩ := h
  cases e with
  | tick =>
    have htimer : (step w .tick).dl.timer = w.dl.timer := by
      simp only [step]; split <;> rfl
    have hever : (step w .tick).dl.everRan = w.dl.everRan := by
      simp only [step]; split <;> rfl
    have hint : (step w .tick).sched.intervals
        = w.sched.intervals.map (fun iv =>
            if iv.nextFire = w.sched.now + 1 then { iv with nextFire := iv.nextFire + iv.period }
            else iv) := by
      simp only [step]; split <;> rfl
    constructor
    · intro hn
      rw [htimer] at hn
      rw [hint, h0 hn]
      rfl
    · intro i hi
      rw [htimer] at hi
      obtain ⟨⟨nf, hnf⟩, hev⟩ := h1 i hi
      refine ⟨⟨if nf = w.sched.now + 1 then nf + 5000 else nf, ?_⟩, ?_⟩
      · rw [hint, hnf]
        by_cases hc : nf = w.sched.now + 1 <;> simp [hc]
      · rw [hever]; exact hev
  | connect =>
    cases hx : w.dl.timer with
    | none =>
      have hs : w.sched.intervals = [] := h0 hx
      cases he : w.dl.everRan with
      | true =>
        have hstep : step w .connect
            = { w with
                sched := ⟨w.sched.now, w.sched.nextId + 1,
                  w.sched.intervals ++ [⟨w.sched.nextId, 5000, w.sched.now + 5000⟩]⟩,
                dl := { w.dl with timer := some w.sched.nextId } } := by
          simp [step, setIntervalS, hx, he]
        rw [hstep]
        constructor
        · intro hn; exact absurd hn (by simp)
        · intro i hi
          simp at hi
          subst hi
          exact ⟨⟨w.sched.now + 5000, by simp [hs]⟩, he⟩
      | false =>
        have hstep : step w .connect
            = { w with
                sched := ⟨w.sched.now, w.sched.nextId + 1,
                  w.sched.intervals ++ [⟨w.sched.nextId, 5000, w.sched.now + 5000⟩]⟩,
                dl := { w.dl with timer := some w.sched.nextId, status := .pending, everRan := true },
                fetches := w.fetches ++ [w.sched.now] } := by
          simp [step, setIntervalS, hx, he]
        rw [hstep]
        constructor
        · intro hn; exact absurd hn (by simp)
        · intro i hi
          simp at hi
          subst hi
          exact ⟨⟨w.sched.now + 5000, by simp [hs]⟩, rfl⟩
    | some j =>
      have hev : w.dl.everRan = true := (h1 j hx).2
      have hstep : step w .connect = w := by
        simp [step, hx, hev]
      rw [hstep]
      exact ⟨h0, h1⟩
  | disconnect =>
    have htimer : (step w .disconnect).dl.timer = none := rfl
    have hint : (step w .disconnect).sched.intervals = [] := by
      cases hx : w.dl.timer with
      | none =>
        show (clearIntervalS w.sched w.dl.timer).intervals = []
        rw [hx]
        exact h0 hx
      | some j =>
        obtain ⟨⟨nf, hnf⟩, _⟩ := h1 j hx
        show (clearIntervalS w.sched w.dl.timer).intervals = []
        rw [hx]
        show w.sched.intervals.filter (fun iv => iv.id ≠ j) = []
        rw [hnf]
        simp
    exact ⟨fun _ => hint, fun _i hi => absurd (htimer ▸ hi) (by simp)⟩
  | pollResponse ok s b =>
    have htimer : (step w (.pollResponse ok s b)).dl.timer = w.dl.timer := by
      simp only [step]; split
      · split <;> rfl
      · rfl
    have hever : (step w (.pollResponse ok s b)).dl.everRan = w.dl.everRan := by
      simp only [step]; split
      · split <;> rfl
      · rfl
    have hsched : (step w (.pollResponse ok s b)).sched = w.sched := by
      simp only [step]; split
      · split <;> rfl
      · rfl
    refine ⟨fun hn => ?_, fun i hi => ?_⟩
    · rw [hsched]; exact h0 (htimer ▸ hn)
    · rw [hsched, hever]
      exact h1 i (htimer ▸ hi)
  | netError m =>
    have htimer : (step w (.netError m)).dl.timer = w.dl.timer := by
      simp only [step]; split <;> rfl
    have hever : (step w (.netError m)).dl.everRan = w.dl.everRan := by
      simp only [step]; split <;> rfl
    have hsched : (step w (.netError m)).sched = w.sched := by
      simp only [step]; split <;> rfl
    refine ⟨fun hn => ?_, fun i hi => ?_⟩
    · rw [hsched]; exact h0 (htimer ▸ hn)
    · rw [hsched, hever]
      exact h1 i (htimer ▸ hi)
  | togglePower id c =>
    exact ⟨h0, h1⟩
  | setColor id v =>
    exact ⟨h0, h1⟩

theorem invDL_foldl :
    ∀ (evs : List GEvent) (w : World), InvDL w → InvDL (List.foldl step w evs) := by
  intro evs
  induction evs with
  | nil => intro w h; exact h
  | cons e es ih => intro w h; exact ih (step w e) (invDL_step w e h)

theorem invDL_runTrace (evs : List GEvent) : InvDL (runTrace evs) :=
  invDL_foldl evs w0 ⟨fun _ => rfl, fun _ hi => Option.noConfusion hi⟩

end GoveeUI

namespace GoveeUI

theorem invTA_ensure (w : TAWorld) (h : InvTA w) : InvTA (taEnsureStarted w) := by
  obtain ⟨h0, h1⟩ := h
  cases hx : w.ta.timer with
  | some j =>
    have he : taEnsureStarted w = w := by simp [taEnsureStarted, hx]
    rw [he]; exact ⟨h0, h1⟩
  | none =>
    have hs : w.sched.intervals = [] := h0 hx
    have he : taEnsureStarted w
        = { w with
            sched := ⟨w.sched.now, w.sched.nextId + 1,
              w.sched.intervals ++ [⟨w.sched.nextId, 1000, w.sched.now + 1000⟩]⟩,
            ta := { w.ta with timer := some w.sched.nextId } } := by
      simp [taEnsureStarted, setIntervalS, hx]
    rw [he]
    constructor
    · intro hn; exact absurd hn (by simp)
    · intro i hi
      simp at hi
      subst hi
      exact ⟨w.sched.now + 1000, by simp [hs]⟩

theorem invTA_displays (w : TAWorld) (d : List (Nat × Int)) (h : InvTA w) :
    InvTA { w with displays := d } :=
  ⟨h.1, h.2⟩

theorem invTA_time (w : TAWorld) (t : Int) (h : InvTA w) :
    InvTA { w with ta := ⟨w.ta.timer, t, w.ta.isConnected⟩ } :=
  ⟨h.1, h.2⟩

theorem invTA_step (w : TAWorld) (e : TAEvent) (h : InvTA w) : InvTA (taStep w e) := by
  obtain ⟨h0, h1⟩ := h
  cases e with
  | update t =>
    cases hc : w.ta.isConnected with
    | false =>
      have he : taStep w (.update t)
          = { w with ta := ⟨w.ta.timer, t, w.ta.isConnected⟩,
                     displays := w.displays ++ [(w.sched.now, t)] } := by
        simp [taStep, hc]
      rw [he]
      exact ⟨h0, h1⟩
    | true =>
      have he : taStep w (.update t)
          = { taEnsureStarted { w with ta := ⟨w.ta.timer, t, w.ta.isConnected⟩ } with
              displays := (taEnsureStarted { w with ta := ⟨w.ta.timer, t, w.ta.isConnected⟩ }).displays
                ++ [((taEnsureStarted { w with ta := ⟨w.ta.timer, t, w.ta.isConnected⟩ }).sched.now, t)] } := by
        simp [taStep, hc]
      rw [he]
      exact invTA_displays _ _ (invTA_ensure _ (invTA_time w t ⟨h0, h1⟩))
  | disconnected =>
    have hint : (taStep w .disconnected).sched.intervals = [] := by
      cases hx : w.ta.timer with
      | none =>
        show (clearIntervalS w.sched w.ta.timer).intervals = []
        rw [hx]
        exact h0 hx
      | some j =>
        obtain ⟨nf, hnf⟩ := h1 j hx
        show (clearIntervalS w.sched w.ta.timer).intervals = []
        rw [hx]
        show w.sched.intervals.filter (fun iv => iv.id ≠ j) = []
        rw [hnf]
        simp
    exact ⟨fun _ => hint, fun _i hi => absurd hi (by simp [taStep])⟩
  | reconnected =>
    exact invTA_ensure _ ⟨h0, h1⟩
  | tick =>
    constructor
    · intro hn
      have hs : w.sched.intervals = [] := h0 hn
      show (w.sched.intervals.map _) = []
      rw [hs]
      rfl
    · intro i hi
      obtain ⟨nf, hnf⟩ := h1 i hi
      refine ⟨if nf = w.sched.now + 1 then nf + 1000 else nf, ?_⟩
      show (w.sched.intervals.map _) = _
      rw [hnf]
      by_cases hc : nf = w.sched.now + 1 <;> simp [hc]

theorem invTA_foldl :
    ∀ (tevs : List TAEvent) (w : TAWorld), InvTA w → InvTA (List.foldl taStep w tevs) := by
  intro tevs
  induction tevs with
  | nil => intro w h; exact h
  | cons e es ih => intro w h; exact ih (taStep w e) (invTA_step w e h)

theorem invTA_taRun (tevs : List TAEvent) : InvTA (taRun tevs) :=
  invTA_foldl tevs taw0 ⟨fun _ => rfl, fun _ hi => Option.noConfusion hi⟩

theorem connect_stable (w : World) (j : Nat) (hx : w.dl.timer = some j)
    (hev : w.dl.everRan = true) : step w .connect = w := by
  simp [step, hx, hev]

theorem connect_connect (w : World) (h : InvDL w) :
    step (step w .connect) .connect = step w .connect := by
  cases hx : w.dl.timer with
  | some j =>
    have hev := (h.2 j hx).2
    rw [connect_stable w j hx hev, connect_stable w j hx hev]
  | none =>
    have hT : ∃ j, (step w .connect).dl.timer = some j
        ∧ (step w .connect).dl.everRan = true := by
      cases he : w.dl.everRan
      · exact ⟨w.sched.nextId, by simp [step, setIntervalS, hx, he],
          by simp [step, setIntervalS, hx, he]⟩
      · exact ⟨w.sched.nextId, by simp [step, setIntervalS, hx, he],
          by simp [step, setIntervalS, hx, he]⟩
    obtain ⟨j, hj, hev⟩ := hT
    exact connect_stable _ j hj hev

theorem ta_eta (t : TA) (h : t.isConnected = true) : { t with isConnected := true } = t := by
  cases t
  simp at h
  rw [h]

theorem reconnected_stable (w : TAWorld) (j : Nat) (hx : w.ta.timer = some j)
    (hc : w.ta.isConnected = true) : taStep w .reconnected = w := by
  show taEnsureStarted { w with ta := { w.ta with isConnected := true } } = w
  rw [ta_eta w.ta hc]
  show taEnsureStarted w = w
  simp [taEnsureStarted, hx]

theorem reconnected_reconnected (w : TAWorld) :
    taStep (taStep w .reconnected) .reconnected = taStep w .reconnected := by
  have hT : ∃ j, (taStep w .reconnected).ta.timer = some j
      ∧ (taStep w .reconnected).ta.isConnected = true := by
    cases hx : w.ta.timer with
    | none =>
      exact ⟨w.sched.nextId, by simp [taStep, taEnsureStarted, setIntervalS, hx],
        by simp [taStep, taEnsureStarted, setIntervalS, hx]⟩
    | some j =>
      exact ⟨j, by simp [taStep, taEnsureStarted, hx],
        by simp [taStep, taEnsureStarted, hx]⟩
  obtain ⟨j, hj, hc⟩ := hT
  exact reconnected_stable _ j hj hc

theorem invDL_length (w : World) (h : InvDL w) : w.sched.intervals.length ≤ 1 := by
  cases hx : w.dl.timer with
  | none => rw [h.1 hx]; decide
  | some j =>
    obtain ⟨⟨nf, hnf⟩, _⟩ := h.2 j hx
    rw [hnf]
    simp

theorem invTA_length (w : TAWorld) (h : InvTA w) : w.sched.intervals.length ≤ 1 := by
  cases hx : w.ta.timer with
  | none => rw [h.1 hx]; decide
  | some j =>
    obtain ⟨nf, hnf⟩ := h.2 j hx
    rw [hnf]
    simp

theorem disconnect_clears (w : World) (h : InvDL w) :
    (step w .disconnect).sched.intervals = [] := by
  cases hx : w.dl.timer with
  | none =>
    show (clearIntervalS w.sched w.dl.timer).intervals = []
    rw [hx]
    exact h.1 hx
  | some j =>
    obtain ⟨⟨nf, hnf⟩, _⟩ := h.2 j hx
    show (clearIntervalS w.sched w.dl.timer).intervals = []
    rw [hx]
    show w.sched.intervals.filter (fun iv => iv.id ≠ j) = []
    rw [hnf]
    simp

theorem ta_disconnect_clears (w : TAWorld) (h : InvTA w) :
    (taStep w .disconnected).sched.intervals = [] := by
  cases hx : w.ta.timer with
  | none =>
    show (clearIntervalS w.sched w.ta.timer).intervals = []
    rw [hx]
    exact h.1 hx
  | some j =>
    obtain ⟨nf, hnf⟩ := h.2 j hx
    show (clearIntervalS w.sched w.ta.timer).intervals = []
    rw [hx]
    show w.sched.intervals.filter (fun iv => iv.id ≠ j) = []
    rw [hnf]
    simp

/-- The C10 claim: along every trace, each instance owns at most one armed
interval; `ensureTimerStarted` is idempotent (a second `connect`/
`reconnected` with a timer already armed changes nothing — no second
timer); and `ensureTimerStopped` always clears the owned interval and
restores the handle to `undefined`. -/
theorem C10_timer_invariant (evs : List GEvent) (tevs : List TAEvent) :
    (runTrace evs).sched.intervals.length ≤ 1
    ∧ step (step (runTrace evs) .connect) .connect = step (runTrace evs) .connect
    ∧ (step (runTrace evs) .disconnect).dl.timer = none
    ∧ (step (runTrace evs) .disconnect).sched.intervals = []
    ∧ (taRun tevs).sched.intervals.length ≤ 1
    ∧ taStep (taStep (taRun tevs) .reconnected) .reconnected
      = taStep (taRun tevs) .reconnected
    ∧ (taStep (taRun tevs) .disconnected).ta.timer = none
    ∧ (taStep (taRun tevs) .disconnected).sched.intervals = [] := by
  have hdl := invDL_runTrace evs
  have hta := invTA_taRun tevs
  exact ⟨invDL_length _ hdl, connect_connect _ hdl, rfl, disconnect_clears _ hdl,
    invTA_length _ hta, reconnected_reconnected _, rfl, ta_disconnect_clears _ hta⟩

end GoveeUI

namespace GoveeUI

/-- The C2 claim, amended: while attached the label re-displays every
1000 ms; after detaching no further display updates occur however far the
clock advances; on re-attach the timer is re-armed at the very instant of
reconnection, and updates resume at the same cadence — but the first
post-reattach display happens one full second after re-attach (the
directive does not recommit a value at the moment of reconnection). -/
theorem C2_live_label_amended (t : Int) (t0 m g h : Nat) :
    (taSession t t0 m g h).displays
      = (t0, t) :: ((List.range (m / 1000)).map (fun k => (t0 + 1000 * (k + 1), t))
          ++ (List.range (h / 1000)).map (fun k => (t0 + m + g + 1000 * (k + 1), t)))
    ∧ (taDetached t t0 m g).displays
      = (t0, t) :: (List.range (m / 1000)).map (fun k => (t0 + 1000 * (k + 1), t))
    ∧ (taStep (taDetached t t0 m g) .reconnected).ta.timer = some 1
    ∧ (taStep (taDetached t t0 m g) .reconnected).sched.intervals
      = [⟨1, 1000, t0 + m + g + 1000⟩] :=
  taSession_spec t t0 m g h

/-- Counterexample to the C2 claim as stated: bind the label at time 0,
detach at 1500, re-attach at 2000. Even 999 ms after re-attaching, the
displays are still exactly those from before detach (at 0 and 1000 ms) —
no update has occurred anywhere in (2000, 2999] — and the first
post-reattach display lands at exactly 3000 ms: a full second must elapse
after re-attach before updates resume. -/
theorem C2_counterexample :
    (taSession 7 0 1500 500 999).displays = [(0, 7), (1000, 7)]
    ∧ (taSession 7 0 1500 500 1000).displays = [(0, 7), (1000, 7), (3000, 7)] := by
  obtain ⟨h1, _, _, _⟩ := taSession_spec 7 0 1500 500 999
  obtain ⟨h2, _, _, _⟩ := taSession_spec 7 0 1500 500 1000
  rw [h1, h2]
  refine ⟨by decide, by decide⟩

end GoveeUI

namespace GoveeUI

theorem foldl_replicate_tick :
    ∀ (n : Nat) (w : World),
      List.foldl step w (List.replicate n .tick) = tickNW w n := by
  intro n
  induction n with
  | zero => intro w; rfl
  | succ k ih =>
    intro w
    show List.foldl step w (.tick :: List.replicate k .tick) = tickNW (step w .tick) k
    rw [List.foldl_cons]
    exact ih (step w .tick)

theorem wfFrom_replicate_tick :
    ∀ (n : Nat) (w : World) (es : List GEvent),
      wfFrom w (List.replicate n .tick ++ es) = wfFrom (tickNW w n) es := by
  intro n
  induction n with
  | zero => intro w es; rfl
  | succ k ih =>
    intro w es
    show wfFrom w (.tick :: (List.replicate k .tick ++ es)) = wfFrom (tickNW (step w .tick) k) es
    rw [wfFrom]
    show (true && wfFrom (step w .tick) (List.replicate k .tick ++ es)) = _
    rw [Bool.true_and]
    exact ih (step w .tick) es

theorem cexTraceC1_ticks :
    List.foldl step w_ok (List.replicate 5000 .tick) = w_pend2 := by
  rw [foldl_replicate_tick, tickNW_spec]
  obtain ⟨hf, hn, hi, hv⟩ :=
    schedTickN_single 5000 0 (by omega) 5000 ⟨0, 1, [⟨0, 5000, 5000⟩]⟩ 5000 (by omega)
      (by norm_num)
  have hfl : (schedTickN ⟨0, 1, [⟨0, 5000, 5000⟩]⟩ 5000).1 = [5000] := by
    rw [hf]
    norm_num
    rw [show List.range 1 = [0] from rfl]
    norm_num
  have hs2 : (schedTickN ⟨0, 1, [⟨0, 5000, 5000⟩]⟩ 5000).2 = ⟨5000, 1, [⟨0, 5000, 10000⟩]⟩ := by
    cases hx : (schedTickN ⟨0, 1, [⟨0, 5000, 5000⟩]⟩ 5000).2 with
    | mk a b c =>
      rw [hx] at hn hi hv
      simp at hn hi hv
      rw [hn, hi, hv]
  show ({ w_ok with
          sched := (schedTickN ⟨0, 1, [⟨0, 5000, 5000⟩]⟩ 5000).2,
          dl := if (schedTickN ⟨0, 1, [⟨0, 5000, 5000⟩]⟩ 5000).1.isEmpty then w_ok.dl
                else { w_ok.dl with status := .pending },
          fetches := w_ok.fetches ++ (schedTickN ⟨0, 1, [⟨0, 5000, 5000⟩]⟩ 5000).1 } : World)
      = w_pend2
  rw [hfl, hs2]
  rfl

theorem runTrace_cexTraceC1 : runTrace cexTraceC1 = w_err := by
  have hunf : runTrace cexTraceC1 = List.foldl step w0 cexTraceC1 := rfl
  have hlist : cexTraceC1
      = [.connect, .pollResponse true 200 [dev1]]
        ++ (List.replicate 5000 .tick ++ [.pollResponse false 500 []]) := rfl
  have h1 : List.foldl step w0 [.connect, .pollResponse true 200 [dev1]] = w_ok := rfl
  rw [hunf, hlist, List.foldl_append, List.foldl_append, h1, cexTraceC1_ticks]
  rfl

/-- Counterexample to C1 as stated: along `cexTraceC1` — a realizable
(well-formed) behavior — a poll fails after one has already succeeded, and
the component renders nothing at all (`blank`): the unhandled `error`
status clears the view instead of keeping the last successful list, even
though that list is still stored in `deviceList`. -/
theorem C1_counterexample :
    wfFrom w0 cexTraceC1 = true
    ∧ (runTrace cexTraceC1).dl.deviceList = some [dev1]
    ∧ renderDL (runTrace cexTraceC1).dl = .blank
    ∧ renderDL (runTrace cexTraceC1).dl ≠ render_device_list [dev1] := by
  have hwf : wfFrom w0 cexTraceC1 = true := by
    have hl : cexTraceC1
        = .connect :: .pollResponse true 200 [dev1]
            :: (List.replicate 5000 .tick ++ [.pollResponse false 500 []]) := rfl
    have hw2 : step (step w0 .connect) (.pollResponse true 200 [dev1]) = w_ok := rfl
    have hg1 : respGuard w0 .connect = true := rfl
    have hg2 : respGuard (step w0 .connect) (.pollResponse true 200 [dev1]) = true := rfl
    have e2 := wfFrom_replicate_tick 5000 w_ok [.pollResponse false 500 []]
    have e3 : tickNW w_ok 5000 = w_pend2 := by
      rw [← foldl_replicate_tick]
      exact cexTraceC1_ticks
    rw [hl, wfFrom, wfFrom, hg1, hw2, hg2, Bool.true_and, Bool.true_and, e2, e3,
      wfFrom, wfFrom]
    rfl
  rw [runTrace_cexTraceC1]
  exact ⟨hwf, rfl, rfl, by decide⟩

/-- The C1 claim, amended: a failing poll (HTTP error or network error)
after a success leaves the stored `deviceList` untouched and never brings
back the loading placeholder, but while the task sits in the `error` state
the component renders nothing (`blank`), because `render()` supplies no
`error:` callback; the retained list is rendered again whenever the task is
pending (or complete) — stale-while-revalidate holds for those states only. -/
theorem C1_error_keeps_list (w : World) (s : Nat) (b : List Device) (msg : String)
    (c : DL) (l : List Device)
    (hw : w.dl.status = .pending)
    (hc : c.status = .pending) (hl : c.deviceList = some l) :
    (step w (.pollResponse false s b)).dl.deviceList = w.dl.deviceList
    ∧ (step w (.pollResponse false s b)).dl.status = .error (.http s)
    ∧ renderDL (step w (.pollResponse false s b)).dl = .blank
    ∧ (step w (.netError msg)).dl.deviceList = w.dl.deviceList
    ∧ renderDL (step w (.netError msg)).dl = .blank
    ∧ renderDL c = render_device_list l
    ∧ renderDL c ≠ .loading := by
  refine ⟨?_, ?_, ?_, ?_, ?_, ?_, ?_⟩ <;>
    simp [step, hw, deviceListTask, renderDL, hc, hl, render_device_list]

/-- Witness for `C1_error_keeps_list`: the freshly mounted pending world
receives a 500, and a pending state caching `[dev1]` renders that table. -/
theorem C1_error_keeps_list_witness :
    (runTrace [GEvent.connect]).dl.status = .pending
    ∧ (⟨some 0, some [dev1], .pending, true⟩ : DL).status = .pending
    ∧ (⟨some 0, some [dev1], .pending, true⟩ : DL).deviceList = some [dev1]
    ∧ ((step (runTrace [GEvent.connect]) (.pollResponse false 500 [])).dl.deviceList
        = (runTrace [GEvent.connect]).dl.deviceList
      ∧ (step (runTrace [GEvent.connect]) (.pollResponse false 500 [])).dl.status
        = .error (.http 500)
      ∧ renderDL (step (runTrace [GEvent.connect]) (.pollResponse false 500 [])).dl = .blank
      ∧ (step (runTrace [GEvent.connect]) (.netError "net down")).dl.deviceList
        = (runTrace [GEvent.connect]).dl.deviceList
      ∧ renderDL (step (runTrace [GEvent.connect]) (.netError "net down")).dl = .blank
      ∧ renderDL (⟨some 0, some [dev1], .pending, true⟩ : DL) = render_device_list [dev1]
      ∧ renderDL (⟨some 0, some [dev1], .pending, true⟩ : DL) ≠ .loading) :=
  ⟨rfl, rfl, rfl,
   C1_error_keeps_list (runTrace [GEvent.connect]) 500 [] "net down"
     ⟨some 0, some [dev1], .pending, true⟩ [dev1] rfl rfl rfl⟩

end GoveeUI
